import Mathlib

/-!
Verification of the Recuvia lost-and-found core against its source.

The definitions below are a shallow embedding of the two source files:
* `src/frontend/app/api/milvus/upload/route.ts` — the `POST /api/milvus/upload`
  handler (auth check, form validation, blob upload to Supabase Storage, image
  resize via sharp, CLIP embedding, Milvus insert, compensating cleanup);
* `src/frontend/app/main/page.tsx` — the client page (text search short-circuit,
  background-processing poll loop, delete-button gating, upload submission).

External collaborators (Supabase auth/storage, the transformers model, Milvus,
the network) are modelled as explicit outcome fields of an environment record;
the handler logic itself is translated line by line.
-/

/-! ## Shared string helpers (JS semantics) -/

/-- The character class matched by the JavaScript regex `\s` and trimmed by
`String.prototype.trim`: space, tab, line terminators, and the Unicode
space separators. -/
def isJsWhitespace (c : Char) : Bool :=
  let n := c.toNat
  n = 0x20 || n = 0x09 || n = 0x0A || n = 0x0B || n = 0x0C || n = 0x0D ||
  n = 0xA0 || n = 0x1680 || (0x2000 ≤ n && n ≤ 0x200A) ||
  n = 0x2028 || n = 0x2029 || n = 0x202F || n = 0x205F || n = 0x3000 || n = 0xFEFF

/-- Model of `s.replace(/\s/g, '_')`: every whitespace character becomes an underscore. -/
def replaceWhitespace (s : String) : String :=
  String.mk (s.data.map (fun c => if isJsWhitespace c then '_' else c))

/-- Model of `s.trim()` in JavaScript: strip leading and trailing whitespace. -/
def jsTrim (s : String) : String :=
  String.mk (((s.data.dropWhile isJsWhitespace).reverse.dropWhile isJsWhitespace).reverse)

/-- A `string | null` form-data field is falsy when it is `null` or `""`
(JS `!title` test in route.ts line 94). -/
def jsFalsy : Option String → Bool
  | none => true
  | some s => s == ""

/-- Value of `formData.get('description') as string || ''` (route.ts line 90):
`null` and `""` both collapse to `""`. -/
def jsOrEmpty : Option String → String
  | none => ""
  | some s => s

/-! ## Upload route (`route.ts`) -/

/-- Constant `MAX_IMAGE_SIZE` (route.ts line 34). -/
def MAX_IMAGE_SIZE : Nat := 512

/-- The uploaded `File`: its name, pixel dimensions, and whether sharp can
decode it (the `catch` branch of `resizeImageBuffer`, lines 60-64, fires
exactly when it cannot). -/
structure UploadImage where
  name : String
  width : Nat
  height : Nat
  sharpOk : Bool
  deriving Repr, DecidableEq

/-- Dimensions produced by `sharp(...).resize({width: 512, height: 512,
fit: 'inside', withoutEnlargement: true})` (route.ts lines 50-57): an image
already inside the box is untouched; otherwise it is scaled down
aspect-preserving so that the larger dimension becomes `maxSize`. -/
def fitInsideDims (w h maxSize : Nat) : Nat × Nat :=
  if w ≤ maxSize ∧ h ≤ maxSize then (w, h)
  else if h ≤ w then (maxSize, h * maxSize / w)
  else (w * maxSize / h, maxSize)

/-- Function `resizeImageBuffer` (route.ts lines 44-65), tracked at the level of the
buffer's pixel dimensions: the resized buffer on success, the ORIGINAL
buffer unchanged when sharp throws (lines 60-64). -/
def resizeImageBuffer (img : UploadImage) : Nat × Nat :=
  if img.sharpOk then fitInsideDims img.width img.height MAX_IMAGE_SIZE
  else (img.width, img.height)

/-- Derivation `fileName = itemId + '-' + image.name.replace(/\s/g, '_')`
(route.ts line 112). -/
def mkFileName (itemId imageName : String) : String :=
  itemId ++ "-" ++ replaceWhitespace imageName

/-- The record inserted into the Milvus collection (route.ts lines 193-207). -/
structure MilvusRecord where
  vector : List Float
  imageId : String
  url : String
  aiDescription : String
  photoDescription : String
  location : String
  submitter_email : String
  created_at : String
  blurHash : String
  aspect : Float
  deriving Repr

/-- Environment of one `POST /api/milvus/upload` request: the request content
plus the outcome of every external call the handler makes. -/
structure UploadEnv where
  /-- Result of `supabase.auth.getSession()`: the authenticated user's email, or `none`. -/
  session : Option String
  /-- Field `formData.get('title')` (`none` models JS `null`). -/
  title : Option String
  /-- Field `formData.get('description')`. -/
  description : Option String
  /-- Field `formData.get('location')`. -/
  location : Option String
  /-- Field `formData.get('image')`. -/
  image : Option UploadImage
  /-- The fresh `uuidv4()`. -/
  itemId : String
  /-- Value of `new Date().toISOString()`. -/
  now : String
  /-- The `supabase.storage.upload` outcome: `some msg` is a storage error. -/
  blobUploadError : Option String
  /-- Bucket prefix of `getPublicUrl`; Supabase public URLs are this base
  followed by `/` and the object name. -/
  publicUrlBase : String
  /-- Outcome of the embedding sub-pipeline (processor/model load, RawImage
  decode, processor and vision-model run): the computed vector, or `none`
  when any of those throws. -/
  embedResult : Option (List Float)
  /-- The `milvus.insert` outcome. -/
  insertOk : Bool
  /-- Outcome of the compensating `storage.remove` in the catch blocks
  (route.ts lines 236-241): `false` means the remove itself threw. -/
  blobRemoveOk : Bool

/-- Observable outcome of one request: the HTTP response plus the final state
of the external stores touched by this item id. -/
structure UploadOutcome where
  status : Nat
  errorMsg : Option String
  /-- Identifier `item.id` of the success payload, when one is returned. -/
  itemReturned : Option String
  /-- Whether a blob remains stored under this request's file name. -/
  blobStored : Bool
  /-- Whether the compensating `storage.remove` was attempted. -/
  blobRemoveAttempted : Bool
  /-- The blob object name used, once execution reaches the upload step. -/
  fileNameUsed : Option String
  /-- Pixel dimensions of the buffer handed to the embedding processor,
  when execution reached that point. -/
  processedDims : Option (Nat × Nat)
  /-- The Milvus record present for this item id after the request. -/
  record : Option MilvusRecord
  deriving Repr

/-- The `POST` handler of `route.ts` (lines 67-281), step by step:
auth check (79-85), required-field validation (94-100), blob upload (115-125),
resize (147), embedding + Milvus insert inside the inner `try` (138-231),
compensating blob removal in the `catch` (232-249, itself fallible and
swallowed, 239-241). -/
def POST (env : UploadEnv) : UploadOutcome :=
  match env.session with
  | none =>
      { status := 401, errorMsg := some "Unauthorized", itemReturned := none,
        blobStored := false, blobRemoveAttempted := false, fileNameUsed := none,
        processedDims := none, record := none }
  | some userEmail =>
      if jsFalsy env.title || jsFalsy env.location || env.image.isNone then
        { status := 400, errorMsg := some "Missing required fields", itemReturned := none,
          blobStored := false, blobRemoveAttempted := false, fileNameUsed := none,
          processedDims := none, record := none }
      else
        match env.image with
        | none =>
            { status := 400, errorMsg := some "Missing required fields", itemReturned := none,
              blobStored := false, blobRemoveAttempted := false, fileNameUsed := none,
              processedDims := none, record := none }
        | some img =>
            let fileName := mkFileName env.itemId img.name
            match env.blobUploadError with
            | some msg =>
                { status := 500, errorMsg := some ("Failed to upload image: " ++ msg),
                  itemReturned := none, blobStored := false, blobRemoveAttempted := false,
                  fileNameUsed := some fileName, processedDims := none, record := none }
            | none =>
                let imageUrl := env.publicUrlBase ++ "/" ++ fileName
                match env.embedResult with
                | none =>
                    { status := 500,
                      errorMsg := some "Failed to process image or save to database",
                      itemReturned := none, blobStored := !env.blobRemoveOk,
                      blobRemoveAttempted := true, fileNameUsed := some fileName,
                      processedDims := none, record := none }
                | some vec =>
                    if env.insertOk then
                      { status := 200, errorMsg := none, itemReturned := some env.itemId,
                        blobStored := true, blobRemoveAttempted := false,
                        fileNameUsed := some fileName,
                        processedDims := some (resizeImageBuffer img),
                        record := some
                          { vector := vec, imageId := env.itemId, url := imageUrl,
                            aiDescription := jsOrEmpty env.title,
                            photoDescription := jsOrEmpty env.description,
                            location := jsOrEmpty env.location,
                            submitter_email := userEmail, created_at := env.now,
                            blurHash := "", aspect := 1.0 } }
                    else
                      { status := 500,
                        errorMsg := some "Failed to process image or save to database",
                        itemReturned := none, blobStored := !env.blobRemoveOk,
                        blobRemoveAttempted := true, fileNameUsed := some fileName,
                        processedDims := some (resizeImageBuffer img), record := none }

/-! ## Client page (`page.tsx`) -/

/-- Shape `interface Profile` (page.tsx lines 22-24). -/
structure Profile where
  email : String
  deriving Repr, DecidableEq

/-- Shape `interface ItemImage` (page.tsx lines 18-20). -/
structure ItemImage where
  image_url : String
  deriving Repr, DecidableEq

/-- Shape `interface Item` (page.tsx lines 26-35). -/
structure Item where
  id : String
  title : String
  description : Option String
  location : String
  created_at : Option String
  profiles : Option Profile
  item_images : List ItemImage
  score : Option Float
  deriving Repr

/-- The slice of `MainPage` component state that `handleTextSearch` touches. -/
structure SearchPageState where
  items : List Item
  loading : Bool
  searchProgress : String
  searchStatusMessage : String
  deriving Repr

/-- Handler `handleTextSearch` (page.tsx lines 283-319). The first component is the
state after the call; the second records whether `fetch('/api/milvus/search/text')`
was invoked. `fetchResult` is the parsed response: `some its` a 2xx body with
its item list, `none` a network/parse/non-ok failure (the `catch` branch). -/
def handleTextSearch (searchQuery : String) (fetchResult : Option (List Item))
    (st : SearchPageState) : SearchPageState × Bool :=
  if jsTrim searchQuery == "" then
    ({ st with items := [] }, false)
  else
    match fetchResult with
    | some its =>
        ({ items := its, loading := false, searchProgress := "complete",
           searchStatusMessage := "Found " ++ toString its.length ++ " items" }, true)
    | none =>
        ({ items := [], loading := false, searchProgress := "error",
           searchStatusMessage := "Error" }, true)

/-- The delete-button visibility gate (page.tsx line 676):
`user.email === item.profiles?.email || user.email === 'riddhimaan22@gmail.com'`.
When `profiles` is absent the first comparison is against `undefined` and is
false. -/
def canShowDelete (userEmail : String) (item : Item) : Bool :=
  (match item.profiles with
   | some p => userEmail == p.email
   | none => false) || userEmail == "riddhimaan22@gmail.com"

/-- The hard-coded administrative identity (page.tsx line 676). -/
def ADMIN_EMAIL : String := "riddhimaan22@gmail.com"

/-- JS `String.prototype.split('/')` on the character list: splits into the
(always nonempty) list of segments between `'/'` separators. -/
def jsSplitSlash : List Char → List (List Char)
  | [] => [[]]
  | c :: cs =>
      match jsSplitSlash cs with
      | [] => [[]]
      | g :: gs => if c = '/' then [] :: g :: gs else (c :: g) :: gs

/-- Model of `url.split('/').pop()` (page.tsx line 444): how `handleDeleteItem` recovers
the blob object name from the record's image URL. -/
def lastUrlSegment (url : String) : Option String :=
  ((jsSplitSlash url.data).getLast?).map String.mk

/-- State of the external stores as seen by the delete route. -/
structure DeleteState where
  records : List MilvusRecord
  blobs : List String

/-- Result taxonomy of the delete route (spec §4.6 / §7). -/
inductive DeleteResult where
  | success
  | authError
  | notFound
  deriving Repr, DecidableEq

/-- Modelled from the spec: the handler of `POST /api/milvus/delete` is not in
the source tree (only its client caller `handleDeleteItem`, page.tsx lines
435-472, and the visibility gate at line 676 are). Per spec §4.6 the requester
must equal the record's `submitter_identity` or be the designated
administrative identity, otherwise the delete fails with an authorization
error; on success the Vector Store entry is removed first, then the blob. -/
def deleteItem (st : DeleteState) (requester itemId fileName : String) :
    DeleteResult × DeleteState :=
  match st.records.find? (fun r => r.imageId == itemId) with
  | none => (DeleteResult.notFound, st)
  | some r =>
      if requester == r.submitter_email || requester == ADMIN_EMAIL then
        (DeleteResult.success,
         { records := st.records.filter (fun x => x.imageId != itemId),
           blobs := st.blobs.filter (fun b => b != fileName) })
      else
        (DeleteResult.authError, st)

/-- Whether `handleSubmit` (page.tsx lines 199-281) creates a background
status entry for the uploaded item: it does so only when the response is ok
and the parsed body carries `result.item.id` (lines 247-265). -/
def handleSubmitAddsEntry (o : UploadOutcome) : Bool :=
  (200 ≤ o.status && o.status < 300) && o.itemReturned.isSome

/-! ## Background-processing poll loop (`page.tsx` lines 87-179) -/

/-- The `setInterval` period and per-item re-check window (page.tsx lines 160, 176). -/
def POLL_INTERVAL_MS : Nat := 2000

/-- Retry ceiling (page.tsx line 163). -/
def MAX_RETRIES : Nat := 30

/-- One entry of the `processingItems` map (page.tsx lines 74-79). -/
structure PollInfo where
  status : String
  message : String
  lastChecked : Nat
  retryCount : Nat
  deriving Repr, DecidableEq

/-- A parsed `GET /api/milvus/status` body, as consumed by `checkMilvusStatus`
(`data.status || 'unknown'`, `data.message || 'Checking status...'`). -/
structure StatusResp where
  status : String
  message : String
  deriving Repr, DecidableEq

/-- Whether an interval firing at `now` INITIATES a `checkMilvusStatus`
request for an entry (page.tsx lines 158-174): the entry is due — not
re-checked within the last 2000 ms (line 160) — and within the 30-retry
ceiling (line 163). Initiating does not touch the entry's recorded state:
`lastChecked` and `retryCount` are stamped only when the asynchronous
response lands (lines 93-101). -/
def tickInitiates (now : Nat) (i : PollInfo) : Bool :=
  POLL_INTERVAL_MS ≤ now - i.lastChecked && !(MAX_RETRIES < i.retryCount)

/-- Whether an interval firing keeps the entry in the map: everything except
a due entry past the retry ceiling, which is deleted (page.tsx lines 163-170). -/
def tickKeeps (now : Nat) (i : PollInfo) : Bool :=
  now - i.lastChecked < POLL_INTERVAL_MS || !(MAX_RETRIES < i.retryCount)

/-- The `setProcessingItems` update applied when a `checkMilvusStatus`
response lands (page.tsx lines 93-101): `Date.now()` is the LANDING time,
and the retry count reads `prev[imageId]?.retryCount || 0` from the map AS
IT IS AT LANDING — so a response landing after its entry was removed
re-inserts the id with the count reset to 1. -/
def landUpdate (now : Nat) (resp : StatusResp) (prev : Option PollInfo) : PollInfo :=
  { status := resp.status, message := resp.message, lastChecked := now,
    retryCount := (match prev with | some j => j.retryCount | none => 0) + 1 }

/-- JS object update used by `setProcessingItems` (spread plus computed key):
replace the value at the key if present, otherwise append the key. -/
def setItem : List (String × PollInfo) → String → PollInfo → List (String × PollInfo)
  | [], id, v => [(id, v)]
  | e :: es, id, v => if e.1 == id then (id, v) :: es else e :: setItem es id v

/-- Lookup of `prev[imageId]` on the entry list. -/
def lookupItem (m : List (String × PollInfo)) (id : String) : Option PollInfo :=
  (m.find? (fun e => e.1 == id)).map (fun e => e.2)

/-- An asynchronous event of the polling loop: a firing of the 2-second
interval, or the landing of one in-flight `checkMilvusStatus` response. -/
inductive PollEvent where
  | tick (now : Nat)
  | land (id : String) (now : Nat) (resp : StatusResp)
  deriving Repr, DecidableEq

/-- State of the client polling machinery: the `processingItems` entries
(insertion-ordered, as `Object.entries` iterates them), the ids with a
`checkMilvusStatus` fetch in flight, and the log of initiated requests
(id, initiation time). -/
structure PollState where
  items : List (String × PollInfo)
  inFlight : List String
  polls : List (String × Nat)
  deriving Repr, DecidableEq

/-- Requests initiated by one interval firing at `now`. -/
def tickInitiations (now : Nat) (items : List (String × PollInfo)) :
    List (String × Nat) :=
  (items.filter (fun e => tickInitiates now e.2)).map (fun e => (e.1, now))

/-- One event of the polling loop (page.tsx lines 87-179). A tick deletes
due entries past the retry ceiling and initiates a request for each due
entry within it, without touching the recorded `lastChecked`/`retryCount`;
a landing consumes one in-flight request and applies `landUpdate` against
the map as it is at landing time, ALWAYS re-inserting its id. -/
def stepPoll (s : PollState) : PollEvent → PollState
  | PollEvent.tick now =>
      { items := s.items.filter (fun e => tickKeeps now e.2),
        inFlight := s.inFlight ++ (tickInitiations now s.items).map (fun e => e.1),
        polls := s.polls ++ tickInitiations now s.items }
  | PollEvent.land id now resp =>
      if s.inFlight.contains id then
        { items := setItem s.items id (landUpdate now resp (lookupItem s.items id)),
          inFlight := s.inFlight.erase id,
          polls := s.polls }
      else s

/-- Run a sequence of interleaved interval firings and response landings. -/
def runPoll (evs : List PollEvent) (s : PollState) : PollState :=
  evs.foldl stepPoll s

/-! ## Lazy model initialization (`route.ts` lines 36-41, 150-165)

The globals `processor` / `vision_model` start `null`; each request runs
`if (!processor) { processor = await AutoProcessor.from_pretrained(...) }`.
The null check and the start of the load are synchronous (one atomic step in
Node's event loop); the assignment happens only when the awaited load
resolves, which is a later step. The machine below captures exactly this
interleaving structure. -/

/-- Where a request is in the initialization fragment: before the null check,
awaiting `from_pretrained`, or past it. -/
inductive ReqPhase where
  | start
  | loading
  | done
  deriving Repr, DecidableEq

/-- Process state: whether the `processor` global is set, how many times
`from_pretrained` has been invoked, and each in-flight request's phase. -/
structure InitState where
  cache : Bool
  loadsStarted : Nat
  threads : List ReqPhase
  deriving Repr, DecidableEq

/-- One event-loop step of request `tid`: at `start`, the null check either
reuses the cached instance or begins a load (counting one `from_pretrained`
invocation); at `loading`, the awaited load resolves and the global is
assigned. -/
def stepThread (s : InitState) (tid : Nat) : InitState :=
  match s.threads.get? tid with
  | none => s
  | some ReqPhase.start =>
      if s.cache then { s with threads := s.threads.set tid ReqPhase.done }
      else { s with threads := s.threads.set tid ReqPhase.loading,
                    loadsStarted := s.loadsStarted + 1 }
  | some ReqPhase.loading =>
      { s with cache := true, threads := s.threads.set tid ReqPhase.done }
  | some ReqPhase.done => s

/-- Run a schedule (a sequence of thread ids chosen by the event loop). -/
def runSched (sched : List Nat) (s : InitState) : InitState :=
  sched.foldl stepThread s

/-- Two requests arriving before the model has ever been loaded. -/
def twoFreshRequests : InitState :=
  { cache := false, loadsStarted := 0, threads := [ReqPhase.start, ReqPhase.start] }

/-! ## Sample environments used by the witnesses -/

/-- A fully successful upload request: authenticated, all fields present,
every external call succeeds. -/
def okEnv : UploadEnv :=
  { session := some "user@example.com", title := some "Backpack",
    description := some "blue", location := some "Library",
    image := some { name := "a b.png", width := 100, height := 80, sharpOk := true },
    itemId := "id-1", now := "2024-01-01T00:00:00.000Z",
    blobUploadError := none,
    publicUrlBase := "https://blob.example/storage/v1/object/public/item-images",
    embedResult := some [1.0, 0.0], insertOk := true, blobRemoveOk := true }

/-- An image sharp cannot decode; its original dimensions exceed the bound. -/
def badImg : UploadImage :=
  { name := "big.bmp", width := 1024, height := 768, sharpOk := false }

/-! ## Helper lemmas -/

lemma jsTrim_eq_empty_of_all_ws (s : String)
    (h : ∀ c ∈ s.data, isJsWhitespace c = true) : jsTrim s = "" := by
  unfold jsTrim
  have h1 : s.data.dropWhile isJsWhitespace = [] := List.dropWhile_eq_nil_iff.mpr h
  rw [h1]
  rfl


lemma fitInsideDims_bounds (w h m : Nat) :
    (fitInsideDims w h m).1 ≤ m ∧ (fitInsideDims w h m).2 ≤ m ∧
    (fitInsideDims w h m).1 ≤ w ∧ (fitInsideDims w h m).2 ≤ h := by
  unfold fitInsideDims
  by_cases h1 : w ≤ m ∧ h ≤ m
  · simp [h1]
  · rw [if_neg h1]
    by_cases h2 : h ≤ w
    · rw [if_pos h2]
      have hmw : m < w := by
        rcases Nat.lt_or_ge m w with hlt | hge
        · exact hlt
        · exact absurd ⟨hge, Nat.le_trans h2 hge⟩ h1
      have hw : 0 < w := Nat.lt_of_le_of_lt (Nat.zero_le m) hmw
      refine ⟨Nat.le_refl m, ?_, Nat.le_of_lt hmw, ?_⟩
      · calc h * m / w ≤ w * m / w := Nat.div_le_div_right (Nat.mul_le_mul_right m h2)
          _ = m := Nat.mul_div_cancel_left m hw
      · calc h * m / w ≤ h * w / w := Nat.div_le_div_right (Nat.mul_le_mul_left h (Nat.le_of_lt hmw))
          _ = h := Nat.mul_div_cancel h hw
    · rw [if_neg h2]
      have hwh : w < h := Nat.lt_of_not_le h2
      have hmh : m < h := by
        rcases Nat.lt_or_ge m h with hlt | hge
        · exact hlt
        · exact absurd ⟨Nat.le_trans (Nat.le_of_lt hwh) hge, hge⟩ h1
      have hh : 0 < h := Nat.lt_of_le_of_lt (Nat.zero_le m) hmh
      refine ⟨?_, Nat.le_refl m, ?_, Nat.le_of_lt hmh⟩
      · calc w * m / h ≤ h * m / h := Nat.div_le_div_right (Nat.mul_le_mul_right m (Nat.le_of_lt hwh))
          _ = m := Nat.mul_div_cancel_left m hh
      · calc w * m / h ≤ w * h / h := Nat.div_le_div_right (Nat.mul_le_mul_left w (Nat.le_of_lt hmh))
          _ = w := Nat.mul_div_cancel w hh

/-! ## C4: empty-query short circuit -/

/-- C4: for every text search whose query is empty or consists only of
whitespace, `handleTextSearch` clears the result list and returns without
invoking the search API; no error state is entered and the rest of the
component state is untouched. -/
theorem empty_query_short_circuit (q : String) (fetchResult : Option (List Item))
    (st : SearchPageState) (h : ∀ c ∈ q.data, isJsWhitespace c = true) :
    handleTextSearch q fetchResult st = ({ st with items := [] }, false) := by
  unfold handleTextSearch
  rw [jsTrim_eq_empty_of_all_ws q h]
  rfl

/-- The component's initial search state (page.tsx lines 45-66). -/
def idleSearchState : SearchPageState :=
  { items := [], loading := false, searchProgress := "idle", searchStatusMessage := "" }

/-- Witness for C4 at the concrete whitespace query `"  "`. -/
theorem empty_query_short_circuit_witness :
    handleTextSearch "  " none idleSearchState = (idleSearchState, false) :=
  empty_query_short_circuit "  " none idleSearchState (by decide)

/-! ## C5: validation and auth reject before any side effect -/

/-- C5: a `POST /upload` without a session gets status 401, and an
authenticated request missing title, location, or image gets status 400;
in both cases no blob is stored, no vector-store record is inserted, and
the client creates no background status entry. -/
theorem reject_before_side_effects (env : UploadEnv) :
    (env.session = none →
      (POST env).status = 401 ∧ (POST env).blobStored = false ∧
      (POST env).record = none ∧ handleSubmitAddsEntry (POST env) = false) ∧
    (∀ u, env.session = some u →
      (jsFalsy env.title = true ∨ jsFalsy env.location = true ∨ env.image = none) →
      (POST env).status = 400 ∧ (POST env).blobStored = false ∧
      (POST env).record = none ∧ handleSubmitAddsEntry (POST env) = false) := by
  constructor
  · intro h
    simp [POST, h, handleSubmitAddsEntry]
  · intro u hu hmiss
    have hc : (jsFalsy env.title || jsFalsy env.location || env.image.isNone) = true := by
      rcases hmiss with h | h | h <;> simp [h]
    simp [POST, hu, hc, handleSubmitAddsEntry]

/-- Witness for C5: a concrete unauthenticated request and a concrete
authenticated request with a missing title. -/
theorem reject_before_side_effects_witness :
    (POST { okEnv with session := none }).status = 401 ∧
    (POST { okEnv with title := none }).status = 400 ∧
    (POST { okEnv with title := none }).blobStored = false := by
  have h1 := (reject_before_side_effects { okEnv with session := none }).1 rfl
  have h2 := (reject_before_side_effects { okEnv with title := none }).2
    "user@example.com" rfl (Or.inl rfl)
  exact ⟨h1.1, h2.1, h2.2.1⟩

/-! ## C9: description is optional and defaults to the empty string -/

/-- C9: an authenticated upload carrying title, location, and image but no
description field is not rejected; it proceeds, and the inserted record's
description is the empty string. -/
theorem description_optional_defaults_empty (env : UploadEnv) (u t l : String)
    (img : UploadImage) (v : List Float)
    (hs : env.session = some u) (ht : env.title = some t) (ht2 : t ≠ "")
    (hl : env.location = some l) (hl2 : l ≠ "") (hi : env.image = some img)
    (hd : env.description = none) (hb : env.blobUploadError = none)
    (he : env.embedResult = some v) (hins : env.insertOk = true) :
    (POST env).status = 200 ∧
    ∃ r, (POST env).record = some r ∧ r.photoDescription = "" ∧ r.vector = v := by
  have hft : jsFalsy env.title = false := by
    simp [ht, jsFalsy]
    exact ht2
  have hfl : jsFalsy env.location = false := by
    simp [hl, jsFalsy]
    exact hl2
  simp [POST, hs, hft, hfl, hi, hb, he, hins, jsOrEmpty, hd]

/-- Witness for C9 at a concrete request with no description field. -/
theorem description_optional_defaults_empty_witness :
    (POST { okEnv with description := none }).status = 200 ∧
    ∃ r, (POST { okEnv with description := none }).record = some r ∧
      r.photoDescription = "" ∧ r.vector = [1.0, 0.0] :=
  description_optional_defaults_empty { okEnv with description := none }
    "user@example.com" "Backpack" "Library"
    { name := "a b.png", width := 100, height := 80, sharpOk := true } [1.0, 0.0]
    rfl rfl (by decide) rfl (by decide) rfl rfl rfl rfl rfl

/-! ## C2: embedding or store failure is surfaced, never defaulted -/

/-- C2: whenever the embedding sub-pipeline (model load, image processing)
or the Milvus insert fails on a request that passed auth, validation, and
blob upload, the handler returns HTTP 500 with a diagnostic message and no
success payload; and a record is ever inserted only on a 200 response,
carrying exactly the computed embedding, never a substituted default. -/
theorem upload_failure_surfaced :
    (∀ (env : UploadEnv) (u : String), env.session = some u →
      jsFalsy env.title = false → jsFalsy env.location = false →
      env.image.isSome = true → env.blobUploadError = none →
      (env.embedResult = none ∨ env.insertOk = false) →
      (POST env).status = 500 ∧ ((POST env).errorMsg).isSome = true ∧
      (POST env).record = none ∧ (POST env).itemReturned = none) ∧
    (∀ (env : UploadEnv) (r : MilvusRecord), (POST env).record = some r →
      (POST env).status = 200 ∧ env.embedResult = some r.vector) := by
  constructor
  · intro env u hs hft hfl himg hb hfail
    obtain ⟨img, hi⟩ := Option.isSome_iff_exists.mp himg
    rcases hfail with he | hins
    · simp [POST, hs, hft, hfl, hi, hb, he]
    · rcases he2 : env.embedResult with _ | vec
      · simp [POST, hs, hft, hfl, hi, hb, he2]
      · simp [POST, hs, hft, hfl, hi, hb, he2, hins]
  · intro env r h
    rcases hs : env.session with _ | u
    · simp [POST, hs] at h
    · by_cases hft : jsFalsy env.title = true
      · simp [POST, hs, hft] at h
      · by_cases hfl : jsFalsy env.location = true
        · simp [POST, hs, hfl] at h
        · simp only [Bool.not_eq_true] at hft hfl
          rcases hi : env.image with _ | img
          · simp [POST, hs, hi] at h
          · rcases hb : env.blobUploadError with _ | msg
            · rcases he : env.embedResult with _ | vec
              · simp [POST, hs, hft, hfl, hi, hb, he] at h
              · by_cases hins : env.insertOk = true
                · constructor
                  · simp [POST, hs, hft, hfl, hi, hb, he, hins]
                  · have h2 : (POST env).record = some
                        { vector := vec, imageId := env.itemId,
                          url := env.publicUrlBase ++ "/" ++ mkFileName env.itemId img.name,
                          aiDescription := jsOrEmpty env.title,
                          photoDescription := jsOrEmpty env.description,
                          location := jsOrEmpty env.location,
                          submitter_email := u, created_at := env.now,
                          blurHash := "", aspect := 1.0 } := by
                      simp [POST, hs, hft, hfl, hi, hb, he, hins]
                    rw [h2] at h
                    cases h
                    rfl
                · simp [POST, hs, hft, hfl, hi, hb, he, hins] at h
            · simp [POST, hs, hft, hfl, hi, hb] at h

/-- Witness for C2: a concrete valid request whose embedding step fails. -/
theorem upload_failure_surfaced_witness :
    (POST { okEnv with embedResult := none }).status = 500 ∧
    (POST { okEnv with embedResult := none }).record = none := by
  have h := upload_failure_surfaced.1 { okEnv with embedResult := none }
    "user@example.com" rfl rfl rfl rfl rfl (Or.inl rfl)
  exact ⟨h.1, h.2.2.1⟩

/-! ## C1: ingestion rollback (corrected) -/

/-- C1 counterexample: a request whose embedding fails AND whose compensating
`storage.remove` also fails (the `catch (cleanupError)` branch, route.ts
lines 239-241) returns an error while the blob remains stored — refuting
the claim that an error response always implies no blob remains. -/
theorem upload_rollback_counterexample :
    (POST { okEnv with embedResult := none, blobRemoveOk := false }).status = 500 ∧
    (POST { okEnv with embedResult := none, blobRemoveOk := false }).blobStored = true :=
  ⟨rfl, rfl⟩

/-- C1 amended: if `POST` returns an error, no Milvus record exists for the
id; whenever a blob had been stored, the compensating removal is attempted;
and if that removal succeeds (or the failure occurred before blob storage),
no blob remains. -/
theorem upload_rollback_on_error (env : UploadEnv)
    (h : (POST env).status ≠ 200) :
    (POST env).record = none ∧
    ((POST env).blobStored = true → (POST env).blobRemoveAttempted = true) ∧
    (env.blobRemoveOk = true → (POST env).blobStored = false) := by
  rcases hs : env.session with _ | u
  · simp [POST, hs]
  · by_cases hft : jsFalsy env.title = true
    · simp [POST, hs, hft]
    · by_cases hfl : jsFalsy env.location = true
      · simp [POST, hs, hfl]
      · simp only [Bool.not_eq_true] at hft hfl
        rcases hi : env.image with _ | img
        · simp [POST, hs, hi]
        · rcases hb : env.blobUploadError with _ | msg
          · rcases he : env.embedResult with _ | vec
            · refine ⟨by simp [POST, hs, hft, hfl, hi, hb, he], ?_, ?_⟩
              · intro _
                simp [POST, hs, hft, hfl, hi, hb, he]
              · intro hrm
                simp [POST, hs, hft, hfl, hi, hb, he, hrm]
            · by_cases hins : env.insertOk = true
              · exact absurd (by simp [POST, hs, hft, hfl, hi, hb, he, hins]) h
              · refine ⟨by simp [POST, hs, hft, hfl, hi, hb, he, hins], ?_, ?_⟩
                · intro _
                  simp [POST, hs, hft, hfl, hi, hb, he, hins]
                · intro hrm
                  simp [POST, hs, hft, hfl, hi, hb, he, hins, hrm]
          · simp [POST, hs, hft, hfl, hi, hb]

/-- Witness for C1 (amended) at a concrete failing request whose
compensating removal succeeds. -/
theorem upload_rollback_on_error_witness :
    (POST { okEnv with embedResult := none }).record = none ∧
    (POST { okEnv with embedResult := none }).blobStored = false := by
  have h := upload_rollback_on_error { okEnv with embedResult := none } (by decide)
  exact ⟨h.1, h.2.2 rfl⟩

/-! ## C3: bounded downscaling before embedding (corrected) -/

/-- C3 counterexample: when sharp cannot process the image (the `catch` in
`resizeImageBuffer`, route.ts lines 60-64), the ORIGINAL buffer is handed
to the embedding processor — here a 1024×768 image reaches the processor
with width 1024 > 512, refuting the claim that the buffer handed over is
always at most 512 pixels in each dimension. -/
theorem resize_fallback_counterexample :
    (POST { okEnv with image := some badImg }).processedDims = some (1024, 768) ∧
    ¬ ((1024 : Nat) ≤ MAX_IMAGE_SIZE) :=
  ⟨rfl, by decide⟩

/-- C3 amended: the buffer handed to the embedding processor is exactly
`resizeImageBuffer`'s output, and whenever sharp succeeds on the image this
output is at most 512×512 and never enlarged; only when the resize itself
fails is the original (possibly larger) buffer passed through. -/
theorem resize_bounded_when_sharp_succeeds (env : UploadEnv) (img : UploadImage)
    (d : Nat × Nat) (hi : env.image = some img)
    (hd : (POST env).processedDims = some d) :
    d = resizeImageBuffer img ∧
    (img.sharpOk = true →
      d.1 ≤ MAX_IMAGE_SIZE ∧ d.2 ≤ MAX_IMAGE_SIZE ∧
      d.1 ≤ img.width ∧ d.2 ≤ img.height) := by
  have hmain : d = resizeImageBuffer img := by
    rcases hs : env.session with _ | u
    · simp [POST, hs] at hd
    · by_cases hft : jsFalsy env.title = true
      · simp [POST, hs, hft] at hd
      · by_cases hfl : jsFalsy env.location = true
        · simp [POST, hs, hfl] at hd
        · simp only [Bool.not_eq_true] at hft hfl
          rcases hb : env.blobUploadError with _ | msg
          · rcases he : env.embedResult with _ | vec
            · simp [POST, hs, hft, hfl, hi, hb, he] at hd
            · by_cases hins : env.insertOk = true
              · have h2 : (POST env).processedDims = some (resizeImageBuffer img) := by
                  simp [POST, hs, hft, hfl, hi, hb, he, hins]
                rw [h2] at hd
                cases hd
                rfl
              · have h2 : (POST env).processedDims = some (resizeImageBuffer img) := by
                  simp [POST, hs, hft, hfl, hi, hb, he, hins]
                rw [h2] at hd
                cases hd
                rfl
          · simp [POST, hs, hft, hfl, hi, hb] at hd
  refine ⟨hmain, ?_⟩
  intro hsharp
  rw [hmain]
  unfold resizeImageBuffer
  rw [hsharp]
  simp only [if_true]
  exact fitInsideDims_bounds img.width img.height MAX_IMAGE_SIZE

/-- Witness for C3 (amended) at the concrete 100×80 upload. -/
theorem resize_bounded_witness :
    (POST okEnv).processedDims = some (100, 80) ∧ (100 : Nat) ≤ MAX_IMAGE_SIZE := by
  have h := resize_bounded_when_sharp_succeeds okEnv
    { name := "a b.png", width := 100, height := 80, sharpOk := true } (100, 80) rfl rfl
  exact ⟨rfl, (h.2 rfl).1⟩

/-! ## C6: delete authorization -/

/-- A concrete stored record owned by `owner@example.com`. -/
def sampleRecord : MilvusRecord :=
  { vector := [1.0], imageId := "item-1", url := "u", aiDescription := "t",
    photoDescription := "", location := "l",
    submitter_email := "owner@example.com", created_at := "T",
    blurHash := "", aspect := 1.0 }

/-- A store holding that one record and its blob. -/
def sampleDeleteState : DeleteState :=
  { records := [sampleRecord], blobs := ["f"] }

/-- C6: a delete is permitted only when the requester equals the record's
submitter or is the single administrative identity; any other requester gets
an authorization error and the records and blobs are left unchanged. The
second part ties the in-source client gate (page.tsx line 676) to the same
condition: the delete button shows exactly for the owner or the admin. -/
theorem delete_requires_authorization :
    (∀ (st : DeleteState) (requester itemId fileName : String) (r : MilvusRecord),
      st.records.find? (fun x => x.imageId == itemId) = some r →
      requester ≠ r.submitter_email → requester ≠ ADMIN_EMAIL →
      deleteItem st requester itemId fileName = (DeleteResult.authError, st)) ∧
    (∀ (u : String) (item : Item) (p : Profile), item.profiles = some p →
      (canShowDelete u item = true ↔ (u = p.email ∨ u = ADMIN_EMAIL))) := by
  constructor
  · intro st requester itemId fileName r hfind h1 h2
    unfold deleteItem
    rw [hfind]
    have hb1 : (requester == r.submitter_email) = false := by
      simp [h1]
    have hb2 : (requester == ADMIN_EMAIL) = false := by
      simp [h2]
    simp [hb1, hb2]
  · intro u item p hp
    simp [canShowDelete, hp, ADMIN_EMAIL]

/-- Witness for C6: a concrete non-owner, non-admin requester is refused and
the store is untouched. -/
theorem delete_requires_authorization_witness :
    deleteItem sampleDeleteState "mallory@example.com" "item-1" "f" =
      (DeleteResult.authError, sampleDeleteState) :=
  delete_requires_authorization.1 sampleDeleteState "mallory@example.com"
    "item-1" "f" sampleRecord rfl (by decide) (by decide)

/-! ## C7: polling rate limit and retry ceiling (corrected) -/

lemma lookupItem_setItem (m : List (String × PollInfo)) (id : String) (v : PollInfo) :
    lookupItem (setItem m id v) id = some v := by
  induction m with
  | nil =>
      show lookupItem [(id, v)] id = some v
      unfold lookupItem
      rw [List.find?_cons_of_pos _ (by simp)]
      rfl
  | cons e es ih =>
      show lookupItem (if e.1 == id then (id, v) :: es else e :: setItem es id v) id = some v
      by_cases h : (e.1 == id) = true
      · rw [if_pos h]
        unfold lookupItem
        rw [List.find?_cons_of_pos _ (by simp)]
        rfl
      · rw [if_neg h]
        unfold lookupItem at ih ⊢
        have hstep : List.find? (fun x : String × PollInfo => x.1 == id)
            (e :: setItem es id v) =
            List.find? (fun x : String × PollInfo => x.1 == id) (setItem es id v) :=
          List.find?_cons_of_neg _ h
        rw [hstep]
        exact ih

/-- An entry that has already used 30 poll attempts, last stamped at t=1000. -/
def staleInfo : PollInfo :=
  { status := "processing", message := "m", lastChecked := 1000, retryCount := 30 }

/-- Initial polling state: that one entry, nothing in flight. -/
def pollStart : PollState :=
  { items := [("item-x", staleInfo)], inFlight := [], polls := [] }

/-- A status response for an item still being processed. -/
def respOk : StatusResp := { status := "processing", message := "still processing" }

/-- A slow-fetch schedule: the tick at t=3000 initiates F1; F1 is still in
flight at t=5000, so the stale `lastChecked` lets that tick initiate F2;
F1 lands at t=5100 pushing the count to 31; the due tick at t=7200 removes
the entry; the stale F2 lands at t=7300 and re-inserts the id with the count
reset to 1; the tick at t=9400 polls the revived entry again. -/
def slowFetchTrace : List PollEvent :=
  [PollEvent.tick 3000,
   PollEvent.tick 5000,
   PollEvent.land "item-x" 5100 respOk,
   PollEvent.tick 7200,
   PollEvent.land "item-x" 7300 respOk,
   PollEvent.tick 9400]

/-- C7 counterexample: under the slow-fetch schedule the entry whose retry
count exceeded the 30-attempt ceiling is removed at its due tick (after the
first four events the id is gone), but the still-in-flight second response
then re-inserts it with `retryCount` reset to 1, and a later tick initiates
a fourth poll of the supposedly retired item — refuting "once an item's
retry count exceeds a fixed ceiling of 30 attempts it is removed from the
map and never polled again, so no item is polled indefinitely". -/
theorem polling_ceiling_counterexample :
    lookupItem (runPoll (slowFetchTrace.take 4) pollStart).items "item-x" = none ∧
    lookupItem (runPoll (slowFetchTrace.take 5) pollStart).items "item-x" =
      some { status := "processing", message := "still processing",
             lastChecked := 7300, retryCount := 1 } ∧
    (runPoll slowFetchTrace pollStart).polls =
      [("item-x", 3000), ("item-x", 5000), ("item-x", 9400)] := by
  decide

/-- C7 amended: per interval firing, an entry re-checked within the last
2000 ms is neither polled nor removed; an entry past 30 retries is never
polled and is deleted at its due tick; an id absent from the map receives
no request from a tick and is not re-added by a tick. But because
`lastChecked` and `retryCount` are stamped only when a response lands, a
fetch slower than the interval lets consecutive ticks initiate overlapping
polls, and a landing response always re-inserts its id — stamping the
landing time and setting the count to one more than whatever the map holds
at landing, i.e. 1 if the entry was meanwhile removed — so removal is
permanent only once no response is in flight. -/
theorem polling_tick_guards (now : Nat) (s : PollState) (id : String)
    (i : PollInfo) (resp : StatusResp) :
    (now - i.lastChecked < POLL_INTERVAL_MS →
      tickInitiates now i = false ∧ tickKeeps now i = true) ∧
    (MAX_RETRIES < i.retryCount →
      tickInitiates now i = false ∧
      (POLL_INTERVAL_MS ≤ now - i.lastChecked → tickKeeps now i = false)) ∧
    (id ∉ s.items.map Prod.fst →
      (∀ t, (id, t) ∉ tickInitiations now s.items) ∧
      id ∉ ((stepPoll s (PollEvent.tick now)).items.map Prod.fst)) ∧
    (s.inFlight.contains id = true →
      lookupItem (stepPoll s (PollEvent.land id now resp)).items id =
        some (landUpdate now resp (lookupItem s.items id)) ∧
      (landUpdate now resp (lookupItem s.items id)).lastChecked = now ∧
      (landUpdate now resp (lookupItem s.items id)).retryCount =
        (match lookupItem s.items id with
         | some j => j.retryCount
         | none => 0) + 1) := by
  have hP : POLL_INTERVAL_MS = 2000 := rfl
  have hM : MAX_RETRIES = 30 := rfl
  refine ⟨?_, ?_, ?_, ?_⟩
  · intro h
    constructor
    · simp [tickInitiates]
      omega
    · simp [tickKeeps]
      omega
  · intro h
    constructor
    · simp [tickInitiates]
      omega
    · intro h2
      simp [tickKeeps]
      omega
  · intro hid
    constructor
    · intro t hmem
      apply hid
      unfold tickInitiations at hmem
      obtain ⟨e, he, heq⟩ := List.mem_map.mp hmem
      obtain ⟨he1, _⟩ := List.mem_filter.mp he
      have he2 : e.1 = id := by
        simpa using congrArg Prod.fst heq
      exact List.mem_map.mpr ⟨e, he1, he2⟩
    · intro hmem
      apply hid
      simp only [stepPoll] at hmem
      obtain ⟨e, he, heq⟩ := List.mem_map.mp hmem
      obtain ⟨he1, _⟩ := List.mem_filter.mp he
      exact List.mem_map.mpr ⟨e, he1, heq⟩
  · intro hf
    refine ⟨?_, rfl, rfl⟩
    simp only [stepPoll]
    rw [if_pos hf]
    exact lookupItem_setItem s.items id (landUpdate now resp (lookupItem s.items id))

/-- A state with the stale entry and one `checkMilvusStatus` response in
flight for it. -/
def inFlightState : PollState :=
  { items := [("item-x", staleInfo)], inFlight := ["item-x"],
    polls := [("item-x", 3000)] }

/-- Witness for C7 (amended): at t=1500 the entry last stamped at t=1000 is
inside the 2-second window, so no request is initiated; a response landing
at t=3100 re-inserts the id stamped with the landing time. -/
theorem polling_tick_guards_witness :
    tickInitiates 1500 staleInfo = false ∧
    lookupItem (stepPoll inFlightState (PollEvent.land "item-x" 3100 respOk)).items
      "item-x" = some (landUpdate 3100 respOk (some staleInfo)) := by
  have h1 := polling_tick_guards 1500 inFlightState "item-x" staleInfo respOk
  have h2 := polling_tick_guards 3100 inFlightState "item-x" staleInfo respOk
  exact ⟨(h1.1 (by decide)).1, (h2.2.2.2 (by decide)).1⟩

/-! ## C8: lazy model initialization (corrected) -/

/-- C8 counterexample: two concurrent first requests interleaved as
check, check, resolve, resolve — both null checks run before either load
resolves and assigns the global, so `from_pretrained` is invoked twice.
The `if (!processor) processor = await ...` pattern (route.ts lines
151-156) is memoizing but not single-flight. -/
theorem model_load_single_flight_counterexample :
    twoFreshRequests.loadsStarted = 0 ∧
    (runSched [0, 1, 0, 1] twoFreshRequests).loadsStarted = 2 :=
  ⟨rfl, rfl⟩

/-- C8 amended: initialization is memoized — once the global cache is
populated, any further steps of any requests under any schedule invoke
`from_pretrained` zero more times and the cache stays populated (every
subsequent call reuses the loaded instance); the single-flight guarantee
for concurrent FIRST requests, however, does not hold. -/
theorem model_load_memoized (sched : List Nat) (s : InitState)
    (h : s.cache = true) :
    (runSched sched s).loadsStarted = s.loadsStarted ∧
    (runSched sched s).cache = true := by
  induction sched generalizing s with
  | nil => exact ⟨rfl, h⟩
  | cons t ts ih =>
      have hstep : (stepThread s t).loadsStarted = s.loadsStarted ∧
          (stepThread s t).cache = true := by
        unfold stepThread
        cases hg : s.threads.get? t with
        | none => exact ⟨rfl, h⟩
        | some ph =>
            cases ph with
            | start =>
                rw [h]
                simp
            | loading => exact ⟨rfl, rfl⟩
            | done => exact ⟨rfl, h⟩
      obtain ⟨h1, h2⟩ := ih (stepThread s t) hstep.2
      refine ⟨?_, h2⟩
      calc (runSched (t :: ts) s).loadsStarted
          = (runSched ts (stepThread s t)).loadsStarted := rfl
        _ = (stepThread s t).loadsStarted := h1
        _ = s.loadsStarted := hstep.1

/-- Witness for C8 (amended): with the cache already populated, two further
requests run to completion without any new `from_pretrained` invocation. -/
theorem model_load_memoized_witness :
    (runSched [0, 1]
      { cache := true, loadsStarted := 1,
        threads := [ReqPhase.start, ReqPhase.start] }).loadsStarted = 1 :=
  (model_load_memoized [0, 1]
    { cache := true, loadsStarted := 1,
      threads := [ReqPhase.start, ReqPhase.start] } rfl).1

/-! ## C10: blob filename derivation -/

lemma jsSplitSlash_ne_nil (l : List Char) : jsSplitSlash l ≠ [] := by
  cases l with
  | nil => simp [jsSplitSlash]
  | cons c cs =>
      unfold jsSplitSlash
      cases h : jsSplitSlash cs with
      | nil => simp
      | cons g gs =>
          by_cases hc : c = '/' <;> simp [hc]

lemma jsSplitSlash_no_sep (l : List Char) (h : ∀ c ∈ l, c ≠ '/') :
    jsSplitSlash l = [l] := by
  induction l with
  | nil => rfl
  | cons c cs ih =>
      have hc : c ≠ '/' := h c (List.mem_cons_self c cs)
      have hrec := ih (fun x hx => h x (List.mem_cons_of_mem c hx))
      unfold jsSplitSlash
      rw [hrec]
      simp [hc]

lemma jsSplitSlash_two_groups (l : List Char) (h : '/' ∈ l) :
    2 ≤ (jsSplitSlash l).length := by
  induction l with
  | nil => cases h
  | cons c cs ih =>
      unfold jsSplitSlash
      cases hsp : jsSplitSlash cs with
      | nil => exact absurd hsp (jsSplitSlash_ne_nil cs)
      | cons g gs =>
          by_cases hc : c = '/'
          · simp [hc]
          · have hmem : '/' ∈ cs := by
              cases List.mem_cons.mp h with
              | inl h1 => exact absurd h1.symm hc
              | inr h2 => exact h2
            have := ih hmem
            rw [hsp] at this
            simp only [List.length_cons] at this ⊢
            simp [hc]
            omega

lemma jsSplitSlash_getLast_append (base f : List Char)
    (hf : ∀ c ∈ f, c ≠ '/') :
    (jsSplitSlash (base ++ '/' :: f)).getLast? = some f := by
  induction base with
  | nil =>
      show (jsSplitSlash ('/' :: f)).getLast? = some f
      unfold jsSplitSlash
      rw [jsSplitSlash_no_sep f hf]
      simp
  | cons b bs ih =>
      show (jsSplitSlash (b :: (bs ++ '/' :: f))).getLast? = some f
      unfold jsSplitSlash
      cases hsp : jsSplitSlash (bs ++ '/' :: f) with
      | nil => exact absurd hsp (jsSplitSlash_ne_nil _)
      | cons g gs =>
          have ihf : (g :: gs).getLast? = some f := by
            rw [← hsp]
            exact ih
          have hlen : 2 ≤ (g :: gs).length := by
            rw [← hsp]
            exact jsSplitSlash_two_groups _ (by simp)
          cases gs with
          | nil => simp at hlen
          | cons g2 gs2 =>
              show ((if b = '/' then [] :: g :: g2 :: gs2
                else (b :: g) :: g2 :: gs2)).getLast? = some f
              by_cases hb : b = '/'
              · rw [if_pos hb]
                rw [List.getLast?_cons_cons]
                exact ihf
              · rw [if_neg hb]
                rw [List.getLast?_cons_cons]
                rw [List.getLast?_cons_cons] at ihf
                exact ihf

lemma mkFileName_no_slash (itemId name : String)
    (hid : ∀ c ∈ itemId.data, c ≠ '/') (hn : ∀ c ∈ name.data, c ≠ '/') :
    ∀ c ∈ (mkFileName itemId name).data, c ≠ '/' := by
  intro c hc
  unfold mkFileName at hc
  rw [String.data_append, String.data_append] at hc
  rcases List.mem_append.mp hc with h1 | h2
  · rcases List.mem_append.mp h1 with h3 | h4
    · exact hid c h3
    · simp at h4
      rw [h4]
      decide
  · unfold replaceWhitespace at h2
    simp at h2
    obtain ⟨x, hx, hfx⟩ := h2
    by_cases hws : isJsWhitespace x = true
    · rw [hws] at hfx
      simp at hfx
      rw [← hfx]
      decide
    · rw [Bool.not_eq_true] at hws
      rw [hws] at hfx
      simp at hfx
      rw [← hfx]
      exact hn x hx

lemma string_append_data_slash (base f : String) :
    (base ++ "/" ++ f).data = base.data ++ '/' :: f.data := by
  rw [String.data_append, String.data_append, List.append_assoc]
  rfl

/-- C10: a successful ingest stores the blob under
`itemId ++ "-" ++ (original name with every whitespace replaced by `_`)`;
the record's image URL is the blob-store base followed by that filename,
so (for slash-free ids and names) the client's `url.split('/').pop()`
recovers exactly the blob filename; and requests with distinct fresh ids of
equal length always produce distinct filenames. -/
theorem blob_filename_derivation :
    (∀ (env : UploadEnv) (img : UploadImage), env.image = some img →
      (POST env).status = 200 →
      (POST env).fileNameUsed = some (mkFileName env.itemId img.name) ∧
      ∃ r, (POST env).record = some r ∧
        r.url = env.publicUrlBase ++ "/" ++ mkFileName env.itemId img.name ∧
        ((∀ c ∈ env.itemId.data, c ≠ '/') → (∀ c ∈ img.name.data, c ≠ '/') →
          lastUrlSegment r.url = some (mkFileName env.itemId img.name))) ∧
    (∀ id1 id2 n1 n2 : String, id1.length = id2.length → id1 ≠ id2 →
      mkFileName id1 n1 ≠ mkFileName id2 n2) := by
  constructor
  · intro env img hi hst
    have hmain : (POST env).fileNameUsed = some (mkFileName env.itemId img.name) ∧
        (POST env).record = some
          { vector := (env.embedResult).getD [],
            imageId := env.itemId,
            url := env.publicUrlBase ++ "/" ++ mkFileName env.itemId img.name,
            aiDescription := jsOrEmpty env.title,
            photoDescription := jsOrEmpty env.description,
            location := jsOrEmpty env.location,
            submitter_email := (env.session).getD "",
            created_at := env.now, blurHash := "", aspect := 1.0 } := by
      rcases hs : env.session with _ | u
      · exact absurd (by simp [POST, hs] : (POST env).status = 401) (by rw [hst]; decide)
      · by_cases hft : jsFalsy env.title = true
        · exact absurd (by simp [POST, hs, hft] : (POST env).status = 400)
            (by rw [hst]; decide)
        · by_cases hfl : jsFalsy env.location = true
          · exact absurd (by simp [POST, hs, hfl] : (POST env).status = 400)
              (by rw [hst]; decide)
          · simp only [Bool.not_eq_true] at hft hfl
            rcases hb : env.blobUploadError with _ | msg
            · rcases he : env.embedResult with _ | vec
              · exact absurd (by simp [POST, hs, hft, hfl, hi, hb, he] :
                  (POST env).status = 500) (by rw [hst]; decide)
              · by_cases hins : env.insertOk = true
                · constructor
                  · simp [POST, hs, hft, hfl, hi, hb, he, hins]
                  · simp [POST, hs, hft, hfl, hi, hb, he, hins]
                · exact absurd (by simp [POST, hs, hft, hfl, hi, hb, he, hins] :
                    (POST env).status = 500) (by rw [hst]; decide)
            · exact absurd (by simp [POST, hs, hft, hfl, hi, hb] :
                (POST env).status = 500) (by rw [hst]; decide)
    refine ⟨hmain.1, ⟨_, hmain.2, rfl, ?_⟩⟩
    intro hid hn
    unfold lastUrlSegment
    show ((jsSplitSlash (env.publicUrlBase ++ "/" ++ mkFileName env.itemId img.name).data).getLast?).map String.mk = _
    rw [string_append_data_slash]
    rw [jsSplitSlash_getLast_append _ _ (mkFileName_no_slash env.itemId img.name hid hn)]
    rfl
  · intro id1 id2 n1 n2 hlen hne heq
    apply hne
    have hdata : id1.data ++ ('-' :: (replaceWhitespace n1).data) =
        id2.data ++ ('-' :: (replaceWhitespace n2).data) := by
      have := congrArg String.data heq
      unfold mkFileName at this
      rw [String.data_append, String.data_append, String.data_append,
        String.data_append] at this
      simpa using this
    have hlen2 : id1.data.length = id2.data.length := hlen
    have := List.append_inj hdata hlen2
    cases id1
    cases id2
    exact congrArg String.mk this.1

/-- Witness for C10 at the concrete successful upload: the blob name is the
id, a hyphen, and the underscored original name; it is recovered from the
URL; and a different id of the same length yields a different name. -/
theorem blob_filename_derivation_witness :
    (POST okEnv).fileNameUsed = some "id-1-a_b.png" ∧
    mkFileName "id-1" "a b.png" ≠ mkFileName "id-2" "a b.png" := by
  have h := blob_filename_derivation
  have h1 := h.1 okEnv { name := "a b.png", width := 100, height := 80, sharpOk := true }
    rfl (by decide)
  constructor
  · rw [h1.1]
    decide
  · exact h.2 "id-1" "id-2" "a b.png" "a b.png" rfl (by decide)
